import Mathlib

/-!
Verification of the Sparsha skin-disease inference engine.

Shallow embedding of `Backend/model_predictor.py` (class `SkinDiseasePredictor`):
checkpoint loading and normalization, class-label recovery and reconciliation,
preprocessing, top-k prediction assembly, and the Grad-CAM saliency generator.

Modelling conventions:
* Python values appearing in checkpoints are modelled by `PyVal`; dictionaries
  are association lists.  Dictionary keys are modelled as strings (checkpoint
  metadata and state-dict keys are strings in practice; integer-like keys are
  represented by their digit strings).
* Real-valued scores (softmax probabilities, activation maps) are modelled by
  rationals; `round(x, 2)` is modelled exactly as round-half-to-even on `ℚ`.
* Code that can raise is modelled with `Option`/`Except`: `none`/`.error`
  marks the raising path, which the source catches with `try/except`.
* External library calls (PIL decoding, torch forward pass, bilinear
  interpolation, colormap/JPEG encoding) are oracles passed in as parameters;
  the control flow around them is translated from the source.
-/

namespace Sparsha

/-- A Python value as it can occur inside a loaded checkpoint. -/
inductive PyVal where
  | vint (i : Int)
  | vstr (s : String)
  | vtensor (shape : List Nat)
  | vdict (entries : List (String × PyVal))
  | vlist (elems : List PyVal)
  | vnone
deriving Repr

/-- Lookup in a Python dict modelled as an association list (`key in d` /
`d[key]`). -/
def dictLookup (entries : List (String × α)) (k : String) : Option α :=
  (entries.find? (fun e => e.1 == k)).map (·.2)

/-- Lexicographic string comparison on unicode scalar values, as Python
compares `str` values.  (Executable so that concrete runs reduce in the
kernel.) -/
def charsLe : List Char → List Char → Bool
  | [], _ => true
  | _ :: _, [] => false
  | a :: as, b :: bs => if a < b then true else if b < a then false else charsLe as bs

def pyStrLe (a b : String) : Bool := charsLe a.data b.data

/-- Stable insertion of `x` into a list sorted by `le`; `x` goes before the
first element it compares `le` to, hence a left fold over the original order
is stable, like Python `sorted`. -/
def insertByLe (le : α → α → Bool) (x : α) : List α → List α
  | [] => [x]
  | y :: ys => if le x y then x :: y :: ys else y :: insertByLe le x ys

/-- Stable sort by the boolean relation `le` (insertion sort; models both
Python `sorted` and the ordering produced by `torch.topk`). -/
def sortByLe (le : α → α → Bool) (l : List α) : List α :=
  l.foldr (insertByLe le) []

/-- `sorted(data.items(), key=lambda item: item[1])` on a metadata dict.
Python compares only the values: an all-`int` or all-`str` value list is
sortable; on a list of length ≤ 1 no comparison happens at all.  Any other
combination (mixed types, `None`, tensors, dicts) raises `TypeError` /
`RuntimeError` during comparison, modelled by `none`.  (Python would compare
two list-valued entries elementwise; list values never occur under these
metadata keys and are modelled as incomparable.) -/
def sortItemsByVal (items : List (String × PyVal)) : Option (List (String × PyVal)) :=
  if items.length ≤ 1 then some items
  else if items.all (fun e => match e.2 with | .vint _ => true | _ => false) then
    some (sortByLe (fun a b =>
      match a.2, b.2 with
      | .vint i, .vint j => decide (i ≤ j)
      | _, _ => true) items)
  else if items.all (fun e => match e.2 with | .vstr _ => true | _ => false) then
    some (sortByLe (fun a b =>
      match a.2, b.2 with
      | .vstr s, .vstr t => pyStrLe s t
      | _, _ => true) items)
  else none

/-- The metadata keys probed by `_extract_class_names`, in source order. -/
def metaKeys : List String := ["class_to_idx", "classes", "class_names", "idx_to_class"]

/-- One probe step of `_extract_class_names`: what the key `k` yields.
A dict value yields its keys sorted by the associated values
(`[name for name, _ in sorted(data.items(), key=item -> item[1])]`); a sort
failure yields nothing (the `except: continue`); a list value is returned
directly; any other value falls through to the next key. -/
def metaYield (entries : List (String × PyVal)) (k : String) : Option (List PyVal) :=
  match dictLookup entries k with
  | some (.vdict items) =>
      match sortItemsByVal items with
      | some sortedItems => some (sortedItems.map (fun e => PyVal.vstr e.1))
      | none => none
  | some (.vlist elems) => some elems
  | _ => none

/-- Loop body of `_extract_class_names`: probe the remaining metadata keys in
order. -/
def extractClassNamesGo (entries : List (String × PyVal)) : List String → Option (List PyVal)
  | [] => none
  | k :: rest =>
      match metaYield entries k with
      | some names => some names
      | none => extractClassNamesGo entries rest

/-- `SkinDiseasePredictor._extract_class_names`: return class names from
common checkpoint metadata keys; `none` when the checkpoint is not a dict or
no probed key yields names. -/
def extractClassNames (checkpoint : PyVal) : Option (List PyVal) :=
  match checkpoint with
  | .vdict entries => extractClassNamesGo entries metaKeys
  | _ => none

/-- The wrapper keys probed by `_extract_state_dict`, in source order. -/
def wrapperKeys : List String := ["state_dict", "model_state_dict", "model", "net"]

/-- `key.startswith(pre)` on the underlying character lists (executable in
the kernel, unlike the built-in string primitives). -/
def charsIsPre : List Char → List Char → Bool
  | [], _ => true
  | _ :: _, [] => false
  | a :: as, b :: bs => a == b && charsIsPre as bs

/-- `key.replace("module.", "", 1) if key.startswith("module.") else key`:
since the key starts with the marker, the first occurrence is the leading
one, so the first 7 characters are dropped. -/
def stripKey (k : String) : String :=
  if charsIsPre "module.".data k.data then String.mk (k.data.drop 7) else k

/-- `_strip_module_prefix`: remove the leading distributed-training marker
from every key of a state dict. -/
def stripModuleMarker (sd : List (String × PyVal)) : List (String × PyVal) :=
  sd.map (fun e => (stripKey e.1, e.2))

/-- Loop of `_extract_state_dict`: the first wrapper key whose value is a
dict. -/
def firstWrapper (entries : List (String × PyVal)) : List String → Option (List (String × PyVal))
  | [] => none
  | k :: rest =>
      match dictLookup entries k with
      | some (.vdict d) => some d
      | _ => firstWrapper entries rest

/-- `SkinDiseasePredictor._extract_state_dict`: extract a parameter mapping
regardless of how the checkpoint was saved.  A non-dict checkpoint yields
`none`; otherwise the first wrapper key holding a dict is used, and failing
that the checkpoint dict itself, in both cases with the distributed-training
key marker stripped. -/
def extractStateDict (checkpoint : PyVal) : Option (List (String × PyVal)) :=
  match checkpoint with
  | .vdict entries =>
      match firstWrapper entries wrapperKeys with
      | some d => some (stripModuleMarker d)
      | none => some (stripModuleMarker entries)
  | _ => none

/-- The classifier keys probed by `_infer_num_classes`, in source order. -/
def classifierKeys : List String := ["classifier.1.weight", "classifier.1.bias"]

/-- Loop of `_infer_num_classes`: a present key whose value has a `shape`
attribute (a tensor) returns `shape[0]`; indexing an empty shape raises
(`.error`), propagating to the caller; a present key without `shape`, or an
absent key, moves on. -/
def inferNumClassesGo (sd : List (String × PyVal)) : List String → Except Unit (Option Nat)
  | [] => .ok none
  | k :: rest =>
      match dictLookup sd k with
      | some (.vtensor shape) =>
          match shape with
          | [] => .error ()
          | n :: _ => .ok (some n)
      | _ => inferNumClassesGo sd rest

/-- `SkinDiseasePredictor._infer_num_classes`: infer the number of output
classes from the classifier weights. -/
def inferNumClasses (sd : List (String × PyVal)) : Except Unit (Option Nat) :=
  inferNumClassesGo sd classifierKeys

/-- The module-level `DEFAULT_CLASS_NAMES` list. -/
def DEFAULT_CLASS_NAMES : List String :=
  ["acne", "actinic_keratosis", "alopecia_areata", "basal_cell_carcinoma",
   "bullous_dermatosis", "cellulitis", "chickenpox", "eczema", "folliculitis",
   "herpes", "hidradenitis_suppurativa", "hives", "impetigo", "keratosis_pilaris",
   "lichen_planus", "melanoma", "molluscum_contagiosum", "psoriasis", "rosacea",
   "scabies", "seborrheic_dermatitis", "shingles", "vitiligo"]

def defaultLabels : List PyVal := DEFAULT_CLASS_NAMES.map PyVal.vstr

/-- Lines 157–159 of `_load_model`: `self.class_names` keeps its current value
unless extraction produced a truthy (non-empty) list. -/
def recoverNames (current : List PyVal) (checkpoint : PyVal) : List PyVal :=
  match extractClassNames checkpoint with
  | some l => if l.isEmpty then current else l
  | none => current

/-- Lines 169–175 of `_load_model`: reconcile the label list with the class
count — extend with synthetic `class_<i>` labels for each missing index, or
truncate. -/
def reconcile (names : List PyVal) (numClasses : Nat) : List PyVal :=
  if names.length = numClasses then names
  else if names.length < numClasses then
    names ++ (List.range' names.length (numClasses - names.length)).map
      (fun i => PyVal.vstr ("class_" ++ toString i))
  else names.take numClasses

/-- The predictor state relevant to loading and prediction (fields of
`SkinDiseasePredictor` set in `__init__`). -/
structure Predictor where
  is_loaded : Bool
  model : Option Unit
  load_error : Option String
  class_names : List PyVal
  method_id : String := "ml_model"
  method_name : String := "efficientnet_b4"
deriving Repr

/-- The predictor state right after `__init__` reaches `_load_model` (torch
available and a model file resolved). -/
def initPredictor : Predictor :=
  { is_loaded := false, model := none, load_error := none, class_names := defaultLabels }

/-- `SkinDiseasePredictor._load_model`, given the already-deserialized
checkpoint.  Class names are recovered (mutating `self.class_names` before
any possible raise), the state dict extracted (`none` raises
`ValueError("Checkpoint did not contain a state_dict")`), the class count
inferred (an empty tensor shape raises `IndexError`), the label list
reconciled.  The remaining torch steps (building the EfficientNet-B4 topology
with `num_classes` outputs, the non-strict weight load, `eval()`) are
abstracted as succeeding, after which `self.model` is set and
`self.is_loaded = True`.  Any raise is caught by the enclosing `except`,
which records `str(exc)` in `self.load_error` and sets `is_loaded = False`. -/
def loadModel (st : Predictor) (checkpoint : PyVal) : Predictor :=
  let names0 := recoverNames st.class_names checkpoint
  match extractStateDict checkpoint with
  | none =>
      { st with class_names := names0, is_loaded := false,
                load_error := some "Checkpoint did not contain a state_dict" }
  | some sd =>
      match inferNumClasses sd with
      | .error _ =>
          { st with class_names := names0, is_loaded := false,
                    load_error := some "tuple index out of range" }
      | .ok numOpt =>
          let numClasses := numOpt.getD names0.length
          { st with class_names := reconcile names0 numClasses,
                    is_loaded := true, model := some () }

/-! Rounding, top-k ranking and prediction assembly. -/

/-- Round to the nearest integer, ties to even — the rounding Python's
built-in `round` performs. -/
def roundHalfEven (x : ℚ) : ℤ :=
  if Int.fract x < 1 / 2 then ⌊x⌋
  else if 1 / 2 < Int.fract x then ⌊x⌋ + 1
  else if Even ⌊x⌋ then ⌊x⌋ else ⌊x⌋ + 1

/-- `round(x, 2)`: round to two decimal places. -/
def pyRound2 (x : ℚ) : ℚ := (roundHalfEven (x * 100) : ℚ) / 100

/-- The probability vector paired with its indices (a tensor's values carry
their positions). -/
def withIdx (ps : List ℚ) : List (ℚ × Nat) :=
  (List.range ps.length).map (fun i => (ps.getD i 0, i))

/-- Comparison placing larger probabilities first. -/
def probGe (a b : ℚ × Nat) : Bool := decide (b.1 ≤ a.1)

/-- `torch.topk(probabilities, k)`: the `k` largest entries of the vector,
with their indices, in descending order of value (tie order refined to the
stable descending sort). -/
def topkPairs (ps : List ℚ) (k : Nat) : List (ℚ × Nat) :=
  (sortByLe probGe (withIdx ps)).take k

/-- `SkinDiseasePredictor._idx_to_label`. -/
def idxToLabel (names : List PyVal) (idx : Int) : PyVal :=
  if idx < 0 ∨ (names.length : Int) ≤ idx then PyVal.vstr ("class_" ++ toString idx)
  else names.getD idx.toNat (PyVal.vstr "")

/-- One entry of `top_predictions`. -/
structure PredEntry where
  disease : PyVal
  confidence : ℚ
deriving Repr

/-- Lines 317–327 of `predict`: `top_k = min(5, probabilities.shape[0])`,
`torch.topk`, then the list of `{disease, confidence}` entries with the
confidence in percent rounded to two decimals. -/
def topPredictions (names : List PyVal) (ps : List ℚ) : List PredEntry :=
  (topkPairs ps (min 5 ps.length)).map
    (fun e => { disease := idxToLabel names (Int.ofNat e.2),
                confidence := pyRound2 (e.1 * 100) })

/-! Preprocessing. -/

/-- `SkinDiseasePredictor._preprocess`: empty bytes short-circuit to `None`;
otherwise the PIL decode / orientation fix / RGB conversion / resize /
normalizing transform pipeline (an external oracle here) either yields a
tensor batch or raises, which the `except` turns into `None`. -/
def preprocessB (pipeline : List Nat → Option Unit) (image_bytes : List Nat) : Option Unit :=
  if image_bytes.isEmpty then none else pipeline image_bytes

/-- Python `self.load_error or "Model is not loaded"`: `None` and the empty
string are falsy. -/
def pyOr (s : Option String) (d : String) : String :=
  match s with
  | some v => if v = "" then d else v
  | none => d

/-! Grad-CAM saliency generator. -/

/-- Availability flags resolved at import time. -/
structure GcDeps where
  torchAvailable : Bool
  matplotlibAvailable : Bool

/-- What the traced forward/backward pass inside the `try` block comes to:
an intermediate step raises; the hooks captured nothing (`not activations or
not gradients`); or an activation map (the weighted channel sum, already
spatial-flattened) was captured. -/
inductive GcOutcome where
  | stepRaises (msg : String)
  | captureMissing
  | captured (cam : List ℚ)

/-- Environment of one `_generate_gradcam` call: dependency flags, presence
of the model and target layer, the traced-pass outcome, and oracles for
bilinear interpolation and for the colormap/blend/JPEG/base64 encoding. -/
structure GcEnv where
  deps : GcDeps
  modelPresent : Bool
  layerPresent : Bool
  outcome : GcOutcome
  interp : List ℚ → List ℚ
  encode : List ℚ → String

/-- Which hooks a `_generate_gradcam` call registered and removed. -/
structure HookLog where
  fwdRegistered : Bool := false
  bwdRegistered : Bool := false
  fwdRemoved : Bool := false
  bwdRemoved : Bool := false
deriving Repr, DecidableEq

/-- `torch.relu` on the activation map. -/
def reluMap (xs : List ℚ) : List ℚ := xs.map (fun x => max x 0)

/-- Minimum of an activation map (`cam.min()`; maps are non-empty in every
real run, the `[]` case is given by the neutral value 0). -/
def camMin : List ℚ → ℚ
  | [] => 0
  | h :: t => t.foldl min h

/-- Maximum of an activation map (`cam.max()`). -/
def camMax : List ℚ → ℚ
  | [] => 0
  | h :: t => t.foldl max h

/-- The normalization epsilon `1e-8`. -/
def epsGC : ℚ := 1 / 100000000

/-- Line 388: `cam = (cam - cam.min()) / (cam.max() - cam.min() + 1e-8)`. -/
def normalizeCam (xs : List ℚ) : List ℚ :=
  xs.map (fun x => (x - camMin xs) / (camMax xs - camMin xs + epsGC))

/-- The `try` block of `_generate_gradcam` after hook registration: backward
pass, capture check, relu, interpolation, normalization, colormap/blend/
encode into a data URI. -/
def gradcamTryBody (env : GcEnv) : Except String (Option String) :=
  match env.outcome with
  | .stepRaises msg => .error msg
  | .captureMissing => .ok none
  | .captured cam =>
      .ok (some ("data:image/jpeg;base64," ++
        env.encode (normalizeCam (env.interp (reluMap cam)))))

/-- `SkinDiseasePredictor._generate_gradcam`: dependency and model/layer
guards return `None` before any hook is registered; then both hooks are
registered, the traced pass runs inside `try` (an exception is caught and
turned into `None`), and the `finally` block removes both hooks on every
path. -/
def generateGradcam (env : GcEnv) : Option String × HookLog :=
  if ¬(env.deps.torchAvailable ∧ env.deps.matplotlibAvailable) then (none, {})
  else if ¬(env.modelPresent ∧ env.layerPresent) then (none, {})
  else
    let afterFinally : HookLog :=
      { fwdRegistered := true, bwdRegistered := true,
        fwdRemoved := true, bwdRemoved := true }
    match gradcamTryBody env with
    | .error _ => (none, afterFinally)
    | .ok r => (r, afterFinally)

/-! The predict facade. -/

/-- Trace of externally visible effects of one `predict` call. -/
structure PredictTrace where
  preprocessCalled : Bool
  forwardRun : Bool
  loadAttempted : Bool
deriving Repr, DecidableEq

/-- The structured result dict of `predict`. -/
structure PredResult where
  success : Bool
  disease : Option PyVal := none
  confidence : Option ℚ := none
  method : Option String := none
  model_name : Option String := none
  top_predictions : List PredEntry := []
  gradcam_image : Option String := none
  error : Option String := none
deriving Repr

/-- `SkinDiseasePredictor.predict`.  Inputs beyond the state: the
preprocessing oracle and raw bytes, the outcome of the forward pass + softmax
(`.error msg` models a raise inside the locked `try`, caught at line 343),
and the Grad-CAM environment.  Returns the result dict, the predictor state
after the call (the method assigns no instance field), and the effect
trace. -/
def predict (st : Predictor) (pipeline : List Nat → Option Unit) (image_bytes : List Nat)
    (forward : Except String (List ℚ)) (env : GcEnv) (include_gradcam : Bool) :
    PredResult × Predictor × PredictTrace :=
  if st.is_loaded = false ∨ st.model = none then
    ({ success := false, error := some (pyOr st.load_error "Model is not loaded") },
     st, ⟨false, false, false⟩)
  else
    match preprocessB pipeline image_bytes with
    | none =>
        ({ success := false,
           error := some "Could not read image (unsupported or corrupt file)" },
         st, ⟨true, false, false⟩)
    | some _batch =>
        match forward with
        | .error msg => ({ success := false, error := some msg }, st, ⟨true, true, false⟩)
        | .ok ps =>
            match topPredictions st.class_names ps with
            | [] =>
                -- `best = top_predictions[0]` raises IndexError, caught at line 343
                ({ success := false, error := some "list index out of range" },
                 st, ⟨true, true, false⟩)
            | best :: _ =>
                let gi := if include_gradcam then (generateGradcam env).1 else none
                ({ success := true, disease := some best.disease,
                   confidence := some best.confidence,
                   method := some st.method_id, model_name := some st.method_name,
                   top_predictions := topPredictions st.class_names ps,
                   gradcam_image := gi },
                 st, ⟨true, true, false⟩)

/-- What a wrapper key contributes in `_extract_state_dict`: its value when
that value is a dict. -/
def wrapYield (entries : List (String × PyVal)) (k : String) :
    Option (List (String × PyVal)) :=
  match dictLookup entries k with
  | some (.vdict d) => some d
  | _ => none

/-- `isinstance(checkpoint, dict)`. -/
def isDict : PyVal → Bool
  | .vdict _ => true
  | _ => false

/-- The conditions under which Grad-CAM generation cannot produce an
overlay: a missing dependency, a missing model or target layer, an
intermediate step raising, or no captured activations/gradients. -/
def gcBlocked (env : GcEnv) : Prop :=
  env.deps.torchAvailable = false ∨ env.deps.matplotlibAvailable = false
  ∨ env.modelPresent = false ∨ env.layerPresent = false
  ∨ (∃ msg, env.outcome = GcOutcome.stepRaises msg)
  ∨ env.outcome = GcOutcome.captureMissing

/-! Helper lemmas. -/

theorem mem_insertByLe {le : α → α → Bool} {x a : α} {l : List α} :
    a ∈ insertByLe le x l ↔ a = x ∨ a ∈ l := by
  induction l with
  | nil => simp [insertByLe]
  | cons y ys ih =>
    by_cases h : le x y
    · simp [insertByLe, h]
    · simp [insertByLe, h, ih]
      tauto

theorem length_insertByLe {le : α → α → Bool} (x : α) (l : List α) :
    (insertByLe le x l).length = l.length + 1 := by
  induction l with
  | nil => simp [insertByLe]
  | cons y ys ih =>
    by_cases h : le x y <;> simp [insertByLe, h, ih]

theorem mem_sortByLe {le : α → α → Bool} {a : α} {l : List α} :
    a ∈ sortByLe le l ↔ a ∈ l := by
  induction l with
  | nil => simp [sortByLe]
  | cons y ys ih =>
    simp only [sortByLe, List.foldr_cons] at *
    rw [mem_insertByLe]
    simp [ih]

theorem length_sortByLe {le : α → α → Bool} (l : List α) :
    (sortByLe le l).length = l.length := by
  induction l with
  | nil => rfl
  | cons y ys ih =>
    simp only [sortByLe, List.foldr_cons] at *
    rw [length_insertByLe, ih, List.length_cons]

theorem pairwise_insertByLe {le : α → α → Bool}
    (htot : ∀ a b, le a b = true ∨ le b a = true)
    (htr : ∀ a b c, le a b = true → le b c = true → le a c = true)
    (x : α) {l : List α} (hl : l.Pairwise (fun a b => le a b = true)) :
    (insertByLe le x l).Pairwise (fun a b => le a b = true) := by
  induction l with
  | nil => simp [insertByLe]
  | cons y ys ih =>
    rw [List.pairwise_cons] at hl
    obtain ⟨hy, hys⟩ := hl
    by_cases h : le x y
    · simp only [insertByLe, if_pos h]
      rw [List.pairwise_cons]
      refine ⟨?_, by rw [List.pairwise_cons]; exact ⟨hy, hys⟩⟩
      intro z hz
      rcases List.mem_cons.mp hz with heq | hz
      · subst heq; exact h
      · exact htr x y z h (hy z hz)
    · simp only [insertByLe, if_neg h]
      rw [List.pairwise_cons]
      refine ⟨?_, ih hys⟩
      intro z hz
      rcases mem_insertByLe.mp hz with heq | hz
      · subst heq
        rcases htot z y with hxy | hyx
        · exact absurd hxy h
        · exact hyx
      · exact hy z hz

theorem pairwise_sortByLe {le : α → α → Bool}
    (htot : ∀ a b, le a b = true ∨ le b a = true)
    (htr : ∀ a b c, le a b = true → le b c = true → le a c = true)
    (l : List α) :
    (sortByLe le l).Pairwise (fun a b => le a b = true) := by
  induction l with
  | nil => simp [sortByLe]
  | cons y ys ih =>
    simp only [sortByLe, List.foldr_cons] at *
    exact pairwise_insertByLe htot htr y ih

theorem mem_withIdx {ps : List ℚ} {e : ℚ × Nat} (h : e ∈ withIdx ps) :
    e.2 < ps.length ∧ e.1 = ps.getD e.2 0 := by
  simp only [withIdx, List.mem_map, List.mem_range] at h
  obtain ⟨i, hi, he⟩ := h
  cases he
  exact ⟨hi, rfl⟩

theorem length_withIdx (ps : List ℚ) : (withIdx ps).length = ps.length := by
  simp [withIdx]

theorem topkPairs_length (ps : List ℚ) (k : Nat) :
    (topkPairs ps k).length = min k ps.length := by
  simp [topkPairs, List.length_take, length_sortByLe, length_withIdx]

theorem topkPairs_mem {ps : List ℚ} {k : Nat} {e : ℚ × Nat} (h : e ∈ topkPairs ps k) :
    e ∈ withIdx ps := by
  exact mem_sortByLe.mp ((List.take_subset k _) h)

theorem topkPairs_pairwise (ps : List ℚ) (k : Nat) :
    (topkPairs ps k).Pairwise (fun a b => b.1 ≤ a.1) := by
  have htot : ∀ a b : ℚ × Nat, probGe a b = true ∨ probGe b a = true := by
    intro a b
    simp only [probGe, decide_eq_true_eq]
    exact le_total b.1 a.1
  have htr : ∀ a b c : ℚ × Nat,
      probGe a b = true → probGe b c = true → probGe a c = true := by
    intro a b c hab hbc
    simp only [probGe, decide_eq_true_eq] at *
    exact le_trans hbc hab
  have hs := pairwise_sortByLe htot htr (withIdx ps)
  have ht := hs.sublist (List.take_sublist k _)
  exact ht.imp (by intro a b h; simpa [probGe] using h)

theorem roundHalfEven_mono {x y : ℚ} (h : x ≤ y) : roundHalfEven x ≤ roundHalfEven y := by
  have hf : ⌊x⌋ ≤ ⌊y⌋ := Int.floor_le_floor h
  have hx0 := Int.fract_nonneg x
  have hx1 := Int.fract_lt_one x
  have hy0 := Int.fract_nonneg y
  have hy1 := Int.fract_lt_one y
  rcases lt_or_eq_of_le hf with hlt | heq
  · have l1 : roundHalfEven x ≤ ⌊x⌋ + 1 := by
      unfold roundHalfEven; split_ifs <;> omega
    have l2 : ⌊y⌋ ≤ roundHalfEven y := by
      unfold roundHalfEven; split_ifs <;> omega
    omega
  · have hfr : Int.fract x ≤ Int.fract y := by
      simp only [Int.fract]
      rw [heq]
      linarith
    unfold roundHalfEven
    rw [heq]
    split_ifs <;> first | omega | linarith

theorem pyRound2_mono {x y : ℚ} (h : x ≤ y) : pyRound2 x ≤ pyRound2 y := by
  unfold pyRound2
  have h1 : roundHalfEven (x * 100) ≤ roundHalfEven (y * 100) :=
    roundHalfEven_mono (by linarith)
  have h2 : ((roundHalfEven (x * 100) : ℚ)) ≤ (roundHalfEven (y * 100) : ℚ) := by
    exact_mod_cast h1
  linarith

theorem foldl_min_le (t : List ℚ) :
    ∀ a : ℚ, t.foldl min a ≤ a ∧ ∀ x ∈ t, t.foldl min a ≤ x := by
  induction t with
  | nil => intro a; simp
  | cons b t ih =>
    intro a
    obtain ⟨h1, h2⟩ := ih (min a b)
    simp only [List.foldl_cons]
    refine ⟨le_trans h1 (min_le_left a b), ?_⟩
    intro x hx
    rcases List.mem_cons.mp hx with heq | hx
    · subst heq; exact le_trans h1 (min_le_right a x)
    · exact h2 x hx

theorem le_foldl_max (t : List ℚ) :
    ∀ a : ℚ, a ≤ t.foldl max a ∧ ∀ x ∈ t, x ≤ t.foldl max a := by
  induction t with
  | nil => intro a; simp
  | cons b t ih =>
    intro a
    obtain ⟨h1, h2⟩ := ih (max a b)
    simp only [List.foldl_cons]
    refine ⟨le_trans (le_max_left a b) h1, ?_⟩
    intro x hx
    rcases List.mem_cons.mp hx with heq | hx
    · subst heq; exact le_trans (le_max_right a x) h1
    · exact h2 x hx

theorem camMin_le {xs : List ℚ} {x : ℚ} (h : x ∈ xs) : camMin xs ≤ x := by
  match xs with
  | a :: t =>
    rcases List.mem_cons.mp h with rfl | h
    · exact (foldl_min_le t x).1
    · exact (foldl_min_le t a).2 x h

theorem le_camMax {xs : List ℚ} {x : ℚ} (h : x ∈ xs) : x ≤ camMax xs := by
  match xs with
  | a :: t =>
    rcases List.mem_cons.mp h with rfl | h
    · exact (le_foldl_max t x).1
    · exact (le_foldl_max t a).2 x h

theorem camMin_le_camMax (xs : List ℚ) : camMin xs ≤ camMax xs := by
  match xs with
  | [] => exact le_refl 0
  | a :: t => exact le_trans ((foldl_min_le t a).1) ((le_foldl_max t a).1)

theorem camDenom_pos (xs : List ℚ) : 0 < camMax xs - camMin xs + epsGC := by
  have h := camMin_le_camMax xs
  have : (0:ℚ) < epsGC := by norm_num [epsGC]
  linarith

theorem normalizeCam_mem_unit {xs : List ℚ} {y : ℚ} (h : y ∈ normalizeCam xs) :
    0 ≤ y ∧ y ≤ 1 := by
  simp only [normalizeCam, List.mem_map] at h
  obtain ⟨x, hx, rfl⟩ := h
  have hmin := camMin_le hx
  have hmax := le_camMax hx
  have hd := camDenom_pos xs
  constructor
  · exact div_nonneg (by linarith) (le_of_lt hd)
  · rw [div_le_one hd]
    have : (0:ℚ) < epsGC := by norm_num [epsGC]
    linarith

theorem extractClassNamesGo_eq_findSome (entries : List (String × PyVal)) :
    ∀ ks : List String,
      extractClassNamesGo entries ks = ks.findSome? (metaYield entries) := by
  intro ks
  induction ks with
  | nil => rfl
  | cons k rest ih =>
    simp only [extractClassNamesGo, List.findSome?_cons]
    cases metaYield entries k <;> simp [ih]

theorem firstWrapper_eq_findSome (entries : List (String × PyVal)) :
    ∀ ks : List String,
      firstWrapper entries ks = ks.findSome? (wrapYield entries) := by
  intro ks
  induction ks with
  | nil => rfl
  | cons k rest ih =>
    simp only [firstWrapper, List.findSome?_cons, wrapYield]
    cases h : dictLookup entries k with
    | none => simpa using ih
    | some v => cases v <;> simp [ih]

theorem topPredictions_length (names : List PyVal) (ps : List ℚ) :
    (topPredictions names ps).length = min 5 ps.length := by
  simp only [topPredictions, List.length_map, topkPairs_length]
  omega

theorem topPredictions_pairwise (names : List PyVal) (ps : List ℚ) :
    (topPredictions names ps).Pairwise (fun a b => b.confidence ≤ a.confidence) := by
  have h := topkPairs_pairwise ps (min 5 ps.length)
  exact h.map _ (fun a b hab =>
    pyRound2_mono (mul_le_mul_of_nonneg_right hab (by norm_num)))

theorem pyOr_ne_empty (s : Option String) (d : String) (hd : d ≠ "") :
    pyOr s d ≠ "" := by
  cases s with
  | none => simpa [pyOr] using hd
  | some v => by_cases hv : v = "" <;> simp [pyOr, hv, hd]

theorem reconcile_length (names : List PyVal) (m : Nat) :
    (reconcile names m).length = m := by
  unfold reconcile
  split_ifs with h1 h2
  · omega
  · simp only [List.length_append, List.length_map, List.length_range']
    omega
  · simp only [List.length_take]
    omega

/-- The success path of `predict`: a loaded predictor, decodable bytes and a
non-raising forward pass over a non-empty probability vector produce the
success result built from the first `top_predictions` entry. -/
theorem predict_success_shape (st : Predictor) (pipeline : List Nat → Option Unit)
    (image_bytes : List Nat) (ps : List ℚ) (env : GcEnv) (ig : Bool)
    (hl : st.is_loaded = true) (hm : st.model = some ())
    (hp : preprocessB pipeline image_bytes = some ()) (hps : ps ≠ []) :
    ∃ best rest, topPredictions st.class_names ps = best :: rest
      ∧ (predict st pipeline image_bytes (Except.ok ps) env ig).1
          = { success := true, disease := some best.disease,
              confidence := some best.confidence,
              method := some st.method_id, model_name := some st.method_name,
              top_predictions := best :: rest,
              gradcam_image := if ig then (generateGradcam env).1 else none }
      ∧ (predict st pipeline image_bytes (Except.ok ps) env ig).2.1 = st
      ∧ (predict st pipeline image_bytes (Except.ok ps) env ig).2.2
          = ⟨true, true, false⟩ := by
  obtain ⟨best, rest, htp⟩ :
      ∃ b r, topPredictions st.class_names ps = b :: r := by
    cases hcase : topPredictions st.class_names ps with
    | nil =>
      exfalso
      have hlen := topPredictions_length st.class_names ps
      rw [hcase] at hlen
      have hpos : 0 < ps.length := List.length_pos.mpr hps
      simp at hlen
      omega
    | cons b r => exact ⟨b, r, rfl⟩
  refine ⟨best, rest, htp, ?_⟩
  unfold predict
  rw [if_neg (by simp [hl, hm]), hp]
  simp [htp]

/-! Claim theorems. -/

/-- C1: for every probability vector of a successful forward pass, the
`top_predictions` list has length `min 5 (number of classes)`, is sorted
descending by confidence (ties allowed), each entry's confidence is the
corresponding probability times 100 rounded to two decimals, and the result's
top-level `disease`/`confidence` equal those of the first entry. -/
theorem claim_C1 (st : Predictor) (pipeline : List Nat → Option Unit)
    (image_bytes : List Nat) (ps : List ℚ) (env : GcEnv) (ig : Bool)
    (hl : st.is_loaded = true) (hm : st.model = some ())
    (hp : preprocessB pipeline image_bytes = some ()) (hps : ps ≠ []) :
    (topPredictions st.class_names ps).length = min 5 ps.length
    ∧ (topPredictions st.class_names ps).Pairwise
        (fun a b => b.confidence ≤ a.confidence)
    ∧ (∀ pr ∈ topPredictions st.class_names ps, ∃ i, ∃ hi : i < ps.length,
        pr.disease = idxToLabel st.class_names (Int.ofNat i)
        ∧ pr.confidence = pyRound2 (ps.get ⟨i, hi⟩ * 100))
    ∧ ∃ best rest, topPredictions st.class_names ps = best :: rest
        ∧ (predict st pipeline image_bytes (Except.ok ps) env ig).1.success = true
        ∧ (predict st pipeline image_bytes (Except.ok ps) env ig).1.top_predictions
            = best :: rest
        ∧ (predict st pipeline image_bytes (Except.ok ps) env ig).1.disease
            = some best.disease
        ∧ (predict st pipeline image_bytes (Except.ok ps) env ig).1.confidence
            = some best.confidence := by
  refine ⟨topPredictions_length st.class_names ps,
          topPredictions_pairwise st.class_names ps, ?_, ?_⟩
  · intro pr hpr
    simp only [topPredictions, List.mem_map] at hpr
    obtain ⟨e, he, rfl⟩ := hpr
    obtain ⟨hi, hv⟩ := mem_withIdx (topkPairs_mem he)
    refine ⟨e.2, hi, rfl, ?_⟩
    rw [hv, List.getD_eq_get _ _ hi]
  · obtain ⟨best, rest, htp, hres, _, _⟩ :=
      predict_success_shape st pipeline image_bytes ps env ig hl hm hp hps
    exact ⟨best, rest, htp, by rw [hres], by rw [hres], by rw [hres], by rw [hres]⟩

theorem claim_C1_witness :
    (topPredictions defaultLabels [3/10, 7/10]).length = min 5 2
    ∧ (topPredictions defaultLabels [3/10, 7/10]).Pairwise
        (fun a b => b.confidence ≤ a.confidence) := by
  have h := claim_C1 { initPredictor with is_loaded := true, model := some () }
    (fun _ => some ()) [0] [3/10, 7/10]
    { deps := ⟨true, true⟩, modelPresent := true, layerPresent := true,
      outcome := .captureMissing, interp := id, encode := fun _ => "" }
    false rfl rfl rfl (by simp)
  exact ⟨h.1, h.2.1⟩

/-- C2: `predict` on an unloaded predictor (not `is_loaded` or no model)
returns a structured failure with a non-empty error message, performs no
preprocessing or tensor computation, leaves the state unchanged, and every
subsequent call returns the same failure without re-attempting the load. -/
theorem claim_C2 (st : Predictor) (pipeline : List Nat → Option Unit)
    (image_bytes : List Nat) (forward : Except String (List ℚ)) (env : GcEnv)
    (ig : Bool) (h : st.is_loaded = false ∨ st.model = none) :
    (predict st pipeline image_bytes forward env ig).1.success = false
    ∧ (predict st pipeline image_bytes forward env ig).1.error
        = some (pyOr st.load_error "Model is not loaded")
    ∧ pyOr st.load_error "Model is not loaded" ≠ ""
    ∧ (predict st pipeline image_bytes forward env ig).2.2
        = ⟨false, false, false⟩
    ∧ (predict st pipeline image_bytes forward env ig).2.1 = st
    ∧ ∀ (pipeline2 : List Nat → Option Unit) (bytes2 : List Nat)
        (forward2 : Except String (List ℚ)) (env2 : GcEnv) (ig2 : Bool),
        (predict (predict st pipeline image_bytes forward env ig).2.1
            pipeline2 bytes2 forward2 env2 ig2).1
          = (predict st pipeline image_bytes forward env ig).1 := by
  have hred : predict st pipeline image_bytes forward env ig
      = ({ success := false, error := some (pyOr st.load_error "Model is not loaded") },
         st, ⟨false, false, false⟩) := by
    unfold predict
    rw [if_pos h]
  refine ⟨by rw [hred], by rw [hred],
          pyOr_ne_empty _ _ (by decide), by rw [hred], by rw [hred], ?_⟩
  intro pipeline2 bytes2 forward2 env2 ig2
  simp only [hred]
  unfold predict
  rw [if_pos h]

theorem claim_C2_witness :
    (predict initPredictor (fun _ => some ()) [0] (Except.ok [1])
        { deps := ⟨true, true⟩, modelPresent := true, layerPresent := true,
          outcome := .captureMissing, interp := id, encode := fun _ => "" }
        false).1.success = false
    ∧ pyOr initPredictor.load_error "Model is not loaded" ≠ "" := by
  have h := claim_C2 initPredictor (fun _ => some ()) [0] (Except.ok [1])
    { deps := ⟨true, true⟩, modelPresent := true, layerPresent := true,
      outcome := .captureMissing, interp := id, encode := fun _ => "" }
    false (Or.inl rfl)
  exact ⟨h.1, h.2.2.1⟩

/-- C3: after a successful checkpoint load the class-name list length equals
the class count inferred from the final classifier tensors; reconciliation
extends a shorter list with synthetic `class_<i>` names, truncates a longer
one, and is total (never raises) for every mismatch. -/
theorem claim_C3 (st : Predictor) (ck : PyVal) (sd : List (String × PyVal))
    (n : Nat) (hsd : extractStateDict ck = some sd)
    (hn : inferNumClasses sd = Except.ok (some n)) :
    (loadModel st ck).is_loaded = true
    ∧ (loadModel st ck).class_names.length = n
    ∧ (∀ names m, (reconcile names m).length = m)
    ∧ (∀ names : List PyVal, ∀ m, names.length < m →
        reconcile names m
          = names ++ (List.range' names.length (m - names.length)).map
              (fun i => PyVal.vstr ("class_" ++ toString i)))
    ∧ (∀ names : List PyVal, ∀ m, m < names.length →
        reconcile names m = names.take m) := by
  have hload : loadModel st ck
      = { st with class_names := reconcile (recoverNames st.class_names ck) n,
                  is_loaded := true, model := some () } := by
    unfold loadModel
    rw [hsd]
    simp [hn]
  refine ⟨by rw [hload], by rw [hload]; exact reconcile_length _ n,
          reconcile_length, ?_, ?_⟩
  · intro names m hlt
    unfold reconcile
    rw [if_neg (by omega), if_pos hlt]
  · intro names m hgt
    unfold reconcile
    rw [if_neg (by omega), if_neg (by omega)]

theorem claim_C3_witness :
    (loadModel initPredictor
      (PyVal.vdict [("state_dict",
        PyVal.vdict [("classifier.1.weight", PyVal.vtensor [7, 1792])])])).class_names.length
      = 7 := by
  have h := claim_C3 initPredictor
    (PyVal.vdict [("state_dict",
      PyVal.vdict [("classifier.1.weight", PyVal.vtensor [7, 1792])])])
    [("classifier.1.weight", PyVal.vtensor [7, 1792])] 7 rfl rfl
  exact h.2.1

/-- C4 counterexample: for the probed key `idx_to_class` holding an
index-to-name dict, `_extract_class_names` returns the dict's KEYS (the
indices) sorted by name — here `["1", "0"]` — not the names ordered by index
(`["b", "a"]`), refuting the claim that a dict value yields the names sorted
by index. -/
theorem claim_C4_counterexample :
    extractClassNames
        (PyVal.vdict [("idx_to_class",
          PyVal.vdict [("0", PyVal.vstr "b"), ("1", PyVal.vstr "a")])])
      = some [PyVal.vstr "1", PyVal.vstr "0"]
    ∧ ¬(extractClassNames
        (PyVal.vdict [("idx_to_class",
          PyVal.vdict [("0", PyVal.vstr "b"), ("1", PyVal.vstr "a")])])
      = some [PyVal.vstr "b", PyVal.vstr "a"]) := by
  have h : extractClassNames
      (PyVal.vdict [("idx_to_class",
        PyVal.vdict [("0", PyVal.vstr "b"), ("1", PyVal.vstr "a")])])
      = some [PyVal.vstr "1", PyVal.vstr "0"] := rfl
  refine ⟨h, ?_⟩
  rw [h]
  intro hcontra
  simp only [Option.some.injEq, List.cons.injEq, PyVal.vstr.injEq] at hcontra
  exact absurd hcontra.1 (by decide)

/-- C4 (amended): class-label recovery probes `class_to_idx`, `classes`,
`class_names`, `idx_to_class` in that order and uses the first key that
yields names; a dict value yields the dict's KEYS ordered by the associated
values (for a name-to-index mapping these are the names sorted by index, but
for `idx_to_class` they are the index keys sorted by name, not the names); a
list value is used directly; when no probed key yields names the current
(default fallback) label list is kept. -/
theorem claim_C4 (entries : List (String × PyVal)) (ck : PyVal)
    (cur : List PyVal) :
    extractClassNames (PyVal.vdict entries)
      = metaKeys.findSome? (metaYield entries)
    ∧ (∀ k items sortedItems, dictLookup entries k = some (PyVal.vdict items) →
        sortItemsByVal items = some sortedItems →
        metaYield entries k = some (sortedItems.map (fun e => PyVal.vstr e.1)))
    ∧ (∀ k elems, dictLookup entries k = some (PyVal.vlist elems) →
        metaYield entries k = some elems)
    ∧ (extractClassNames ck = none → recoverNames cur ck = cur) := by
  refine ⟨extractClassNamesGo_eq_findSome entries metaKeys, ?_, ?_, ?_⟩
  · intro k items sortedItems h1 h2
    simp [metaYield, h1, h2]
  · intro k elems h
    simp [metaYield, h]
  · intro h
    unfold recoverNames
    rw [h]

theorem claim_C4_witness :
    extractClassNames (PyVal.vdict [("classes", PyVal.vlist [PyVal.vstr "x"])])
      = metaKeys.findSome?
          (metaYield [("classes", PyVal.vlist [PyVal.vstr "x"])])
    ∧ metaYield [("classes", PyVal.vlist [PyVal.vstr "x"])] "classes"
        = some [PyVal.vstr "x"]
    ∧ recoverNames defaultLabels (PyVal.vstr "no-dict") = defaultLabels := by
  have h := claim_C4 [("classes", PyVal.vlist [PyVal.vstr "x"])]
    (PyVal.vstr "no-dict") defaultLabels
  exact ⟨h.1, h.2.2.1 "classes" [PyVal.vstr "x"] rfl, h.2.2.2 rfl⟩

/-- C5: empty or undecodable byte input makes preprocessing return null
(never raising), and `predict` then fails with the exact corrupt-file error
message without running the forward pass. -/
theorem claim_C5 (st : Predictor) (pipeline : List Nat → Option Unit)
    (image_bytes : List Nat) (forward : Except String (List ℚ)) (env : GcEnv)
    (ig : Bool) (hl : st.is_loaded = true) (hm : st.model = some ())
    (hbad : image_bytes = [] ∨ pipeline image_bytes = none) :
    preprocessB pipeline image_bytes = none
    ∧ (predict st pipeline image_bytes forward env ig).1.success = false
    ∧ (predict st pipeline image_bytes forward env ig).1.error
        = some "Could not read image (unsupported or corrupt file)"
    ∧ (predict st pipeline image_bytes forward env ig).2.2.forwardRun = false := by
  have hpre : preprocessB pipeline image_bytes = none := by
    unfold preprocessB
    rcases hbad with rfl | hbad
    · simp
    · by_cases hempty : image_bytes.isEmpty <;> simp [hempty, hbad]
  have hred : predict st pipeline image_bytes forward env ig
      = ({ success := false,
           error := some "Could not read image (unsupported or corrupt file)" },
         st, ⟨true, false, false⟩) := by
    unfold predict
    rw [if_neg (by simp [hl, hm]), hpre]
  exact ⟨hpre, by rw [hred], by rw [hred], by rw [hred]⟩

theorem claim_C5_witness :
    preprocessB (fun _ => some ()) [] = none
    ∧ (predict { initPredictor with is_loaded := true, model := some () }
        (fun _ => some ()) [] (Except.ok [1])
        { deps := ⟨true, true⟩, modelPresent := true, layerPresent := true,
          outcome := .captureMissing, interp := id, encode := fun _ => "" }
        false).1.error
        = some "Could not read image (unsupported or corrupt file)" := by
  have h := claim_C5 { initPredictor with is_loaded := true, model := some () }
    (fun _ => some ()) [] (Except.ok [1])
    { deps := ⟨true, true⟩, modelPresent := true, layerPresent := true,
      outcome := .captureMissing, interp := id, encode := fun _ => "" }
    false rfl rfl (Or.inl rfl)
  exact ⟨h.1, h.2.2.1⟩

/-- C6: state-dict extraction checks the wrapper keys `state_dict`,
`model_state_dict`, `model`, `net` in that order and uses the first whose
value is a dict (marker-stripped); a dict with none of them is itself the
parameter mapping; a non-dict checkpoint yields null and the load fails with
`is_loaded` false and a recorded load error. -/
theorem claim_C6 (st : Predictor) (entries : List (String × PyVal)) (ck : PyVal) :
    extractStateDict (PyVal.vdict entries)
      = some (stripModuleMarker
          ((wrapperKeys.findSome? (wrapYield entries)).getD entries))
    ∧ (∀ k d, wrapYield entries k = some d ↔
        dictLookup entries k = some (PyVal.vdict d))
    ∧ (isDict ck = false → extractStateDict ck = none
        ∧ (loadModel st ck).is_loaded = false
        ∧ (loadModel st ck).load_error
            = some "Checkpoint did not contain a state_dict") := by
  refine ⟨?_, ?_, ?_⟩
  · show (match firstWrapper entries wrapperKeys with
      | some d => some (stripModuleMarker d)
      | none => some (stripModuleMarker entries)) = _
    rw [firstWrapper_eq_findSome entries wrapperKeys]
    cases wrapperKeys.findSome? (wrapYield entries) <;> simp
  · intro k d
    unfold wrapYield
    cases h : dictLookup entries k with
    | none => simp
    | some v => cases v <;> simp
  · intro h
    have hnone : extractStateDict ck = none := by
      cases ck <;> simp_all [extractStateDict, isDict]
    refine ⟨hnone, ?_, ?_⟩ <;>
      · unfold loadModel
        rw [hnone]

theorem claim_C6_witness :
    extractStateDict (PyVal.vdict [("module.fc", PyVal.vtensor [2])])
      = some (stripModuleMarker
          ((wrapperKeys.findSome?
              (wrapYield [("module.fc", PyVal.vtensor [2])])).getD
            [("module.fc", PyVal.vtensor [2])]))
    ∧ extractStateDict (PyVal.vint 3) = none
    ∧ (loadModel initPredictor (PyVal.vint 3)).is_loaded = false := by
  have h1 := claim_C6 initPredictor [("module.fc", PyVal.vtensor [2])] (PyVal.vint 3)
  exact ⟨h1.1, (h1.2.2 rfl).1, (h1.2.2 rfl).2.1⟩

/-- C7: the Grad-CAM map normalization `(map - min) / (max - min + 1e-8)`
never divides by zero (the denominator is strictly positive for every map,
flat ones included), every normalized value lies in `[0, 1]`, and whenever
the guards pass and a map was captured — in particular for a flat map — the
generator produces an overlay instead of raising. -/
theorem claim_C7 (cam : List ℚ) (env : GcEnv) :
    (∀ y ∈ normalizeCam cam, 0 ≤ y ∧ y ≤ 1)
    ∧ 0 < camMax cam - camMin cam + epsGC
    ∧ (env.deps.torchAvailable = true → env.deps.matplotlibAvailable = true →
        env.modelPresent = true → env.layerPresent = true →
        env.outcome = GcOutcome.captured cam →
        (generateGradcam env).1
          = some ("data:image/jpeg;base64," ++
              env.encode (normalizeCam (env.interp (reluMap cam))))) := by
  refine ⟨fun y hy => normalizeCam_mem_unit hy, camDenom_pos cam, ?_⟩
  intro h1 h2 h3 h4 h5
  unfold generateGradcam
  rw [if_neg (by simp [h1, h2]), if_neg (by simp [h3, h4])]
  simp [gradcamTryBody, h5]

theorem claim_C7_witness :
    (∀ y ∈ normalizeCam [1/2, 1/2], 0 ≤ y ∧ y ≤ 1)
    ∧ (generateGradcam
        { deps := ⟨true, true⟩, modelPresent := true, layerPresent := true,
          outcome := .captured [1/2, 1/2], interp := id,
          encode := fun _ => "flat" }).1
        = some ("data:image/jpeg;base64," ++ "flat") := by
  have h := claim_C7 [1/2, 1/2]
    { deps := ⟨true, true⟩, modelPresent := true, layerPresent := true,
      outcome := .captured [1/2, 1/2], interp := id, encode := fun _ => "flat" }
  exact ⟨h.1, h.2.2 rfl rfl rfl rfl rfl⟩

/-- C8: whenever Grad-CAM generation cannot proceed (missing dependency,
missing model or layer, nothing captured) or a step of it raises, the
generator returns null and the enclosing `predict` still returns a
`success = true` result with `gradcam_image` null. -/
theorem claim_C8 (st : Predictor) (pipeline : List Nat → Option Unit)
    (image_bytes : List Nat) (ps : List ℚ) (env : GcEnv)
    (hl : st.is_loaded = true) (hm : st.model = some ())
    (hp : preprocessB pipeline image_bytes = some ()) (hps : ps ≠ [])
    (hgc : gcBlocked env) :
    (generateGradcam env).1 = none
    ∧ (predict st pipeline image_bytes (Except.ok ps) env true).1.success = true
    ∧ (predict st pipeline image_bytes (Except.ok ps) env true).1.gradcam_image
        = none := by
  have hnone : (generateGradcam env).1 = none := by
    rcases hgc with h | h | h | h | ⟨m, h⟩ | h <;>
      · unfold generateGradcam
        split_ifs <;> simp_all [gradcamTryBody]
  obtain ⟨best, rest, htp, hres, _, _⟩ :=
    predict_success_shape st pipeline image_bytes ps env true hl hm hp hps
  rw [hres]
  exact ⟨hnone, rfl, by simp [hnone]⟩

theorem claim_C8_witness :
    (generateGradcam
        { deps := ⟨true, true⟩, modelPresent := true, layerPresent := true,
          outcome := .stepRaises "shape mismatch", interp := id,
          encode := fun _ => "" }).1 = none
    ∧ (predict { initPredictor with is_loaded := true, model := some () }
        (fun _ => some ()) [0] (Except.ok [1])
        { deps := ⟨true, true⟩, modelPresent := true, layerPresent := true,
          outcome := .stepRaises "shape mismatch", interp := id,
          encode := fun _ => "" }
        true).1.success = true := by
  have h := claim_C8 { initPredictor with is_loaded := true, model := some () }
    (fun _ => some ()) [0] [1]
    { deps := ⟨true, true⟩, modelPresent := true, layerPresent := true,
      outcome := .stepRaises "shape mismatch", interp := id,
      encode := fun _ => "" }
    rfl rfl rfl (by simp) (Or.inr (Or.inr (Or.inr (Or.inr (Or.inl ⟨_, rfl⟩)))))
  exact ⟨h.1, h.2.1⟩

/-- C9: on every execution path of the Grad-CAM generator that registers the
hooks — overlay produced, early null return, or an exception in an
intermediate step — both hooks are deregistered before the generator
returns. -/
theorem claim_C9 (env : GcEnv)
    (h : (generateGradcam env).2.fwdRegistered = true
       ∨ (generateGradcam env).2.bwdRegistered = true) :
    (generateGradcam env).2.fwdRemoved = true
    ∧ (generateGradcam env).2.bwdRemoved = true := by
  by_cases h1 : env.deps.torchAvailable ∧ env.deps.matplotlibAvailable
  · by_cases h2 : env.modelPresent ∧ env.layerPresent
    · unfold generateGradcam
      rw [if_neg (by simpa using h1), if_neg (by simpa using h2)]
      rcases hgb : gradcamTryBody env with m | r <;> simp [hgb]
    · exfalso
      unfold generateGradcam at h
      rw [if_neg (by simpa using h1), if_pos (by simpa using h2)] at h
      simp at h
  · exfalso
    unfold generateGradcam at h
    rw [if_pos (by simpa using h1)] at h
    simp at h

theorem claim_C9_witness :
    (generateGradcam
        { deps := ⟨true, true⟩, modelPresent := true, layerPresent := true,
          outcome := .captureMissing, interp := id,
          encode := fun _ => "" }).2.fwdRemoved = true
    ∧ (generateGradcam
        { deps := ⟨true, true⟩, modelPresent := true, layerPresent := true,
          outcome := .captureMissing, interp := id,
          encode := fun _ => "" }).2.bwdRemoved = true :=
  claim_C9 _ (Or.inl rfl)

/-- C10: the index-to-label lookup is total — the stored class name for an
in-range index and the synthetic `class_<index>` string for a negative or
out-of-range one — so building `top_predictions` never raises an index
error, even when the probability vector is longer than the class-name
list. -/
theorem claim_C10 (names : List PyVal) (idx : Int) (ps : List ℚ) :
    (idx < 0 ∨ (names.length : Int) ≤ idx →
      idxToLabel names idx = PyVal.vstr ("class_" ++ toString idx))
    ∧ (0 ≤ idx → idx < (names.length : Int) →
      names[idx.toNat]? = some (idxToLabel names idx))
    ∧ (topPredictions names ps).length = min 5 ps.length := by
  refine ⟨?_, ?_, topPredictions_length names ps⟩
  · intro h
    unfold idxToLabel
    rw [if_pos h]
  · intro h0 hlt
    have ht : idx.toNat < names.length := by omega
    unfold idxToLabel
    rw [if_neg (by omega), List.getElem?_eq_getElem ht,
        List.getD_eq_getElem _ _ ht]

theorem claim_C10_witness :
    idxToLabel [PyVal.vstr "acne"] (-2)
      = PyVal.vstr ("class_" ++ toString (-2 : Int))
    ∧ [PyVal.vstr "acne"][(0 : Int).toNat]?
        = some (idxToLabel [PyVal.vstr "acne"] 0)
    ∧ (topPredictions [PyVal.vstr "acne"] [1/4, 3/4]).length
        = min 5 ([1/4, 3/4] : List ℚ).length :=
  ⟨(claim_C10 [PyVal.vstr "acne"] (-2) []).1 (Or.inl (by decide)),
   (claim_C10 [PyVal.vstr "acne"] 0 []).2.1 (by decide) (by decide),
   (claim_C10 [PyVal.vstr "acne"] 0 [1/4, 3/4]).2.2⟩

end Sparsha
